import Mathlib

/-!
Shallow embedding of the Shopify-Price-Update core (src/app/page.tsx, the
primary variant, and src/page.tsx, the legacy variant).  JavaScript numbers
are modelled as rationals (ℚ); `Math.round` is modelled exactly
(round half toward positive infinity); floating-point rounding error and the
IEEE special values (NaN, Infinity) are outside the model.  CSV cells are
strings; a missing cell is `none`.
-/

namespace PriceUpdate

/-- Calculation method selected in the UI: `markupType` is either the string
"margin" or "markup" in the source. -/
inductive Method where
  | margin : Method
  | markup : Method
deriving Repr, DecidableEq

/-- Model of JavaScript `Math.round x`: the nearest integer, rounding half
toward positive infinity, i.e. `⌊x + 1/2⌋`. -/
def jsRound (q : ℚ) : ℤ := ⌊q + 1/2⌋

/-- Model of the source idiom `Math.round (x * 100) / 100`: round to two
decimal places. -/
def round2 (q : ℚ) : ℚ := (jsRound (q * 100) : ℚ) / 100

/-- Characters treated as digits by the numeric parser. -/
def isDigitCh (c : Char) : Bool := 48 ≤ c.toNat && c.toNat ≤ 57

/-- Numeric value of a decimal digit character. -/
def digitVal (c : Char) : Nat := c.toNat - 48

/-- Value of a list of decimal digit characters, most significant first. -/
def natOfDigits (ds : List Char) : Nat :=
  ds.foldl (fun n c => n * 10 + digitVal c) 0

/-- Reads an optional leading sign; returns (isNegative, remaining input). -/
def readSign : List Char → Bool × List Char
  | c :: rest =>
      if c = '-' then (true, rest)
      else if c = '+' then (false, rest)
      else (false, c :: rest)
  | [] => (false, [])

/-- Model of JavaScript `parseFloat` on a string with no leading whitespace
(the caller has already stripped all whitespace): parses the longest prefix of
the form sign? (digits (. digits?)? | . digits) ((e|E) sign? digits)? and
returns `none` (for NaN) when no digits are found.  The special literal
"Infinity" is not modelled (no rational value; unused by the claims). -/
def jsParseFloat (s : String) : Option ℚ :=
  let cs := s.toList
  let (neg, cs1) := readSign cs
  let ip := cs1.takeWhile isDigitCh
  let cs2 := cs1.dropWhile isDigitCh
  let (fp, cs3) :=
    match cs2 with
    | c :: rest =>
        if c = '.' then (rest.takeWhile isDigitCh, rest.dropWhile isDigitCh)
        else ([], cs2)
    | [] => ([], [])
  if ip.isEmpty && fp.isEmpty then none
  else
    let mant : ℚ := (natOfDigits ip : ℚ) + (natOfDigits fp : ℚ) / (10 : ℚ) ^ fp.length
    let scaled : ℚ :=
      match cs3 with
      | c :: rest =>
          if c = 'e' ∨ c = 'E' then
            let (eneg, r2) := readSign rest
            let ed := r2.takeWhile isDigitCh
            if ed.isEmpty then mant
            else if eneg then mant / (10 : ℚ) ^ natOfDigits ed
            else mant * (10 : ℚ) ^ natOfDigits ed
          else mant
      | [] => mant
    some (if neg then -scaled else scaled)

/-- Characters removed by the source regex `/[$,\s"']/g`: dollar sign (36),
comma (44), any whitespace, double quote (34) and single quote (39). -/
def isStrippedCh (c : Char) : Bool :=
  c.toNat = 36 || c.toNat = 44 || c.toNat = 34 || c.toNat = 39 || c.isWhitespace

/-- Model of `String(value).replace(/[$,\s"']/g, '')`. -/
def stripMoney (s : String) : String :=
  String.mk (s.toList.filter (fun c => !(isStrippedCh c)))

/-- Embedding of `cleanNumber` (src/app/page.tsx lines 33-38): a falsy cell
(missing or empty string) yields 0; otherwise the cell is stripped of currency
symbols, commas, whitespace and quotes and parsed with `parseFloat`; NaN
yields 0. -/
def cleanNumber (v : Option String) : ℚ :=
  match v with
  | none => 0
  | some s =>
      if s = "" then 0
      else
        match jsParseFloat (stripMoney s) with
        | none => 0
        | some q => q

/-- Raw parsed CSV row (PapaParse with `header: true`): an association list
from column name to cell text, in column order.  `row[k]` is `undefined`
(here `none`) when the column is absent. -/
abbrev RawRow := List (String × String)

/-- Model of the JavaScript property read `row[k]` on a parsed row. -/
def lookupField (row : RawRow) (k : String) : Option String :=
  (row.find? (fun p => p.1 == k)).map (fun p => p.2)

/-- Model of JavaScript `String.prototype.trim`: removes leading and
trailing whitespace. -/
def jsTrim (s : String) : String :=
  String.mk (((s.toList.dropWhile Char.isWhitespace).reverse.dropWhile
    Char.isWhitespace).reverse)

/-- Model of JavaScript `s.startsWith(t)`. -/
def jsStartsWith (s t : String) : Bool :=
  t.toList.isPrefixOf s.toList

/-- Embedding of the `ProductRow` interface of both variants: the fixed typed
fields plus the pass-through fields of the original CSV row (the
`[key: string]: any` index signature, kept in `extra` for re-export).
`new_price_shopify` is the 2-decimal string mirror of `new_price` that
`calculatePrices` adds for export. -/
structure ProductRow where
  sku : String
  title : String
  current_price : ℚ
  cost_price : ℚ
  new_price : Option ℚ := none
  margin_percent : Option ℚ := none
  price_change : Option ℚ := none
  new_price_shopify : Option String := none
  extra : RawRow := []
deriving Repr, DecidableEq

/-- Model of JavaScript `x.toFixed(2)` as applied in the source: the source
only ever applies it to a value already rounded by `Math.round(x*100)/100`,
i.e. to an exact multiple of 1/100, where `toFixed(2)` prints the sign, the
integer part, a dot and exactly two fractional digits. -/
def toFixed2 (q : ℚ) : String :=
  let n : ℤ := jsRound (q * 100)
  let a : ℕ := n.natAbs
  let fracStr := (if a % 100 < 10 then "0" else "") ++ toString (a % 100)
  (if n < 0 then "-" else "") ++ toString (a / 100) ++ "." ++ fracStr

namespace App

/-- Required identifier column of the primary variant. -/
def skuField : String := "Variant SKU"

/-- Required price column of the primary variant. -/
def priceField : String := "Variant Price"

/-- Optional cost column of the primary variant. -/
def costField : String := "Cost per item"

/-- Optional title column of the primary variant. -/
def titleField : String := "Title"

/-- Embedding of the per-row body of `calculatePrices` (src/app/page.tsx
lines 109-135).  `row.cost_price || 0` is the identity on a rational field
(JavaScript falsy 0 maps to 0).  On a zero-cost row the function
short-circuits, spreading the row and overriding only the three derived
fields (`new_price_shopify` is left as it was). -/
def calcRow (marginTarget : ℚ) (markupType : Method) (row : ProductRow) :
    ProductRow :=
  let cost := row.cost_price
  if cost = 0 then
    { row with new_price := some row.current_price,
               margin_percent := some 0,
               price_change := some 0 }
  else
    let newPrice0 : ℚ :=
      match markupType with
      | Method.margin => cost / (1 - marginTarget / 100)
      | Method.markup => cost * (1 + marginTarget / 100)
    let newPrice := round2 newPrice0
    let marginAmount := newPrice - cost
    let marginPercent : ℚ := if 0 < newPrice then marginAmount / newPrice * 100 else 0
    { row with new_price := some newPrice,
               margin_percent := some (round2 marginPercent),
               price_change := some (round2 (newPrice - row.current_price)),
               new_price_shopify := some (toFixed2 newPrice) }

/-- Embedding of `calculatePrices` of the primary variant: one batch map over
the whole dataset. -/
def calculatePrices (marginTarget : ℚ) (markupType : Method)
    (data : List ProductRow) : List ProductRow :=
  data.map (calcRow marginTarget markupType)

/-- Embedding of the per-row normalisation inside `handleFileUpload`
(src/app/page.tsx lines 76-91): trims identifier and title, synthesizes the
`ROW-<index+1>` placeholder for a falsy identifier, and runs `cleanNumber`
on the price and cost cells; the whole original row is spread into the
result (kept in `extra`). -/
def mkRow (index : Nat) (row : RawRow) : ProductRow :=
  let rawPrice := lookupField row priceField
  let rawCost := lookupField row costField
  let rawSku := lookupField row skuField
  let rawTitle := lookupField row titleField
  { sku :=
      match rawSku with
      | some s => if s = "" then "ROW-" ++ toString (index + 1) else jsTrim s
      | none => "ROW-" ++ toString (index + 1),
    title :=
      match rawTitle with
      | some s => if s = "" then "Unknown Product" else jsTrim s
      | none => "Unknown Product",
    current_price := cleanNumber rawPrice,
    cost_price := cleanNumber rawCost,
    extra := row }

/-- Embedding of the row filter `row.sku && !row.sku.startsWith('ROW-')`
(src/app/page.tsx line 92). -/
def validRow (r : ProductRow) : Bool :=
  !(r.sku == "") && !(jsStartsWith r.sku "ROW-")

/-- Column set discovered from the first parsed row (`Object.keys(firstRow)`,
src/app/page.tsx line 56); empty when there is no row. -/
def columnsOf (parsed : List RawRow) : List String :=
  ((parsed.headI : RawRow)).map Prod.fst

/-- Missing required columns, in the push order of the source (identifier
column first, then price column); cost and title columns are never checked. -/
def missingOf (columns : List String) : List String :=
  (if skuField ∈ columns then [] else [skuField]) ++
  (if priceField ∈ columns then [] else [priceField])

/-- Rows surviving normalisation and the identifier filter
(src/app/page.tsx lines 76-92). -/
def processedOf (parsed : List RawRow) : List ProductRow :=
  ((parsed.enum).map (fun p => mkRow p.1 p.2)).filter validRow

/-- Structured view of the three validation failures of `handleFileUpload`
(the spec's taxonomy `EmptyDataset`, `MissingColumns(names)`,
`NoValidRows`). -/
inductive IngestError where
  | EmptyDataset : IngestError
  | MissingColumns : List String → IngestError
  | NoValidRows : IngestError
deriving Repr, DecidableEq

/-- Result view of the ingestion logic of `handleFileUpload`
(src/app/page.tsx lines 48-99): the guards in source order, returning the
discovered column set and the processed rows on success. -/
def ingest (parsed : List RawRow) : Except IngestError (List String × List ProductRow) :=
  match parsed with
  | [] => Except.error IngestError.EmptyDataset
  | first :: _ =>
      let columns := first.map Prod.fst
      let missing := missingOf columns
      if missing ≠ [] then Except.error (IngestError.MissingColumns missing)
      else
        let processed := processedOf parsed
        if processed = [] then Except.error IngestError.NoValidRows
        else Except.ok (columns, processed)

/-- Session state of the primary variant relevant to the core: the row set,
the recorded header set and the error string.  (The original-file-name state
only feeds output naming, a presentation detail.) -/
structure AppState where
  data : List ProductRow := []
  headers : List String := []
  error : String := ""
deriving Repr, DecidableEq

/-- State-transition view of `handleFileUpload` (src/app/page.tsx lines
40-106) on the parse-complete callback: `setError('')` first, then the
guards in source order.  Note `setHeaders(columns)` runs before the
row filter, so the `NoValidRows` failure still replaces the headers. -/
def handleFileUpload (s : AppState) (parsed : List RawRow) : AppState :=
  let s0 : AppState := { s with error := "" }
  match parsed with
  | [] => { s0 with error := "CSV file is empty" }
  | first :: _ =>
      let columns := first.map Prod.fst
      let missing := missingOf columns
      if missing ≠ [] then
        { s0 with error := "Missing columns: " ++ String.intercalate ", " missing
                          ++ ". Found: " ++ String.intercalate ", " columns }
      else
        let s1 : AppState := { s0 with headers := columns }
        let processed := processedOf parsed
        if processed = [] then
          { s1 with error := "No valid products found. Check your CSV has data in the Variant SKU column." }
        else
          { s1 with data := processed }

/-- Summary statistics record of the primary variant (src/app/page.tsx lines
174-182). -/
structure Stats where
  total : Nat
  avgMargin : ℚ
  priceIncreases : Nat
  priceDecreases : Nat
  zeroCost : Nat
deriving Repr, DecidableEq

/-- Embedding of the `stats` object: `avgMargin` is the arithmetic mean of
`margin_percent || 0` (0 for an empty dataset; the UI then formats it with
`toFixed(1)` for display), and the increase/decrease counters use strict
comparisons of `price_change || 0`. -/
def stats (data : List ProductRow) : Stats :=
  { total := data.length,
    avgMargin :=
      if 0 < data.length then
        (data.foldl (fun acc r => acc + r.margin_percent.getD 0) 0) / (data.length : ℚ)
      else 0,
    priceIncreases := (data.filter (fun r => decide (0 < r.price_change.getD 0))).length,
    priceDecreases := (data.filter (fun r => decide (r.price_change.getD 0 < 0))).length,
    zeroCost := (data.filter (fun r => decide (r.cost_price = 0))).length }

/-- Characters kept verbatim by the handle regex `[^a-z0-9]+`: lowercase
ASCII letters and digits. -/
def isLowerAlnum (c : Char) : Bool :=
  (97 ≤ c.toNat && c.toNat ≤ 122) || (48 ≤ c.toNat && c.toNat ≤ 57)

/-- Model of `.replace(/[^a-z0-9]+/g, '-')`: every maximal run of characters
outside [a-z0-9] becomes a single hyphen. -/
def collapseRuns : List Char → List Char
  | [] => []
  | c :: rest =>
      if isLowerAlnum c then c :: collapseRuns rest
      else Char.ofNat 45 :: collapseRuns (rest.dropWhile (fun d => !(isLowerAlnum d)))
termination_by l => l.length
decreasing_by
  · simp [List.length_cons]
  · have h := (List.dropWhile_sublist (fun d => !(isLowerAlnum d)) (l := rest)).length_le
    simp [List.length_cons]
    omega

/-- Model of `sku.toLowerCase().replace(/[^a-z0-9]+/g, '-')` (ASCII
lower-casing; the identifiers in scope are ASCII). -/
def handleize (s : String) : String :=
  String.mk (collapseRuns (s.toList.map Char.toLower))

/-- Handle column of the target-platform export: the pass-through `Handle`
field when truthy, otherwise derived from the identifier. -/
def handleOf (row : ProductRow) : String :=
  match lookupField row.extra "Handle" with
  | some h => if h = "" then handleize row.sku else h
  | none => handleize row.sku

/-- Price cell of the target-platform export, the JavaScript expression
`row.new_price_shopify || row.new_price`: the 2-decimal string when present
(and nonempty), else the raw `new_price` number, else `undefined`
(here `none`). -/
def shopifyPrice (row : ProductRow) : Option (String ⊕ ℚ) :=
  let fallback : Option (String ⊕ ℚ) :=
    match row.new_price with
    | some q => some (Sum.inr q)
    | none => none
  match row.new_price_shopify with
  | some s => if s = "" then fallback else some (Sum.inl s)
  | none => fallback

/-- Row of the target-platform import export (src/app/page.tsx lines
154-160); the fields are the CSV columns Handle, Title, Variant SKU,
Variant Price, Cost per item, in order. -/
structure ShopifyRow where
  handle : String
  title : String
  sku : String
  price : Option (String ⊕ ℚ)
  cost : ℚ
deriving Repr, DecidableEq

/-- Projection of one product row for `downloadShopifyFormat`. -/
def shopifyRow (row : ProductRow) : ShopifyRow :=
  { handle := handleOf row,
    title := row.title,
    sku := row.sku,
    price := shopifyPrice row,
    cost := row.cost_price }

/-- Embedding of the `shopifyData` mapping of `downloadShopifyFormat`. -/
def shopifyData (data : List ProductRow) : List ShopifyRow :=
  data.map shopifyRow

end App

namespace Legacy

/-- Embedding of the per-row body of `calculatePrices` of the legacy variant
(src/page.tsx lines 51-72).  There is no zero-cost short-circuit: the
initial `let newPrice = row.current_price` is dead (both branches overwrite
it) and the formulas run for every row, including cost 0. -/
def calcRow (marginTarget : ℚ) (markupType : Method) (row : ProductRow) :
    ProductRow :=
  let cost := row.cost_price
  let newPrice0 : ℚ :=
    match markupType with
    | Method.margin => cost / (1 - marginTarget / 100)
    | Method.markup => cost * (1 + marginTarget / 100)
  let newPrice := round2 newPrice0
  let marginAmount := newPrice - cost
  let marginPercent : ℚ := if 0 < newPrice then marginAmount / newPrice * 100 else 0
  { row with new_price := some newPrice,
             margin_percent := some (round2 marginPercent),
             price_change := some (round2 (newPrice - row.current_price)),
             new_price_shopify := some (toFixed2 newPrice) }

/-- Embedding of `calculatePrices` of the legacy variant. -/
def calculatePrices (marginTarget : ℚ) (markupType : Method)
    (data : List ProductRow) : List ProductRow :=
  data.map (calcRow marginTarget markupType)

end Legacy

/-! Concrete fixtures used by the theorems below. -/

/-- Fixture: a row with cost 60 and current price 50, the spec's worked
pricing example. -/
def rowCost60 : ProductRow :=
  { sku := "SKU-1", title := "Widget", current_price := 50, cost_price := 60 }

/-- Fixture: a zero-cost row (cost unknown). -/
def rowCost0 : ProductRow :=
  { sku := "SKU-0", title := "Freebie", current_price := 25, cost_price := 0 }

/-- C1: for every row with cost_price > 0, the pricing pass computes
new_price = cost/(1 - t/100) under the margin method and
new_price = cost*(1 + t/100) under the markup method, both rounded to two
decimals; for cost 60 and target 40 the margin method gives new_price 100.00
with realized margin 40.00 and the markup method gives new_price 84.00 with
realized margin 28.57. -/
theorem margin_markup_formulas (row : ProductRow) (t : ℚ)
    (h : 0 < row.cost_price) :
    (App.calcRow t Method.margin row).new_price
        = some (round2 (row.cost_price / (1 - t / 100)))
    ∧ (App.calcRow t Method.markup row).new_price
        = some (round2 (row.cost_price * (1 + t / 100)))
    ∧ (App.calcRow 40 Method.margin rowCost60).new_price = some 100
    ∧ (App.calcRow 40 Method.margin rowCost60).margin_percent = some 40
    ∧ (App.calcRow 40 Method.markup rowCost60).new_price = some 84
    ∧ (App.calcRow 40 Method.markup rowCost60).margin_percent = some (2857 / 100) := by
  have hne : row.cost_price ≠ 0 := ne_of_gt h
  refine ⟨by simp [App.calcRow, hne], by simp [App.calcRow, hne], ?_, ?_, ?_, ?_⟩
  · simp [App.calcRow, rowCost60, round2, jsRound]
    norm_num
  · simp [App.calcRow, rowCost60, round2, jsRound]
    norm_num
  · simp [App.calcRow, rowCost60, round2, jsRound]
    norm_num
  · simp [App.calcRow, rowCost60, round2, jsRound]
    norm_num

/-- Witness for C1 at the spec's example row (cost 60, target 40). -/
theorem margin_markup_formulas_witness :
    (App.calcRow 40 Method.margin rowCost60).new_price
      = some (round2 (rowCost60.cost_price / (1 - 40 / 100))) :=
  (margin_markup_formulas rowCost60 40 (by norm_num [rowCost60])).1

/-- C2: for every row with cost_price = 0, the pricing pass (primary
variant) short-circuits for any target and either method: new_price equals
the current price, margin_percent is 0 and price_change is 0. -/
theorem zero_cost_short_circuit (row : ProductRow) (t : ℚ) (m : Method)
    (h : row.cost_price = 0) :
    (App.calcRow t m row).new_price = some row.current_price
    ∧ (App.calcRow t m row).margin_percent = some 0
    ∧ (App.calcRow t m row).price_change = some 0 := by
  simp [App.calcRow, h]

/-- Witness for C2 at a concrete zero-cost row. -/
theorem zero_cost_short_circuit_witness :
    (App.calcRow 40 Method.margin rowCost0).new_price = some rowCost0.current_price
    ∧ (App.calcRow 40 Method.margin rowCost0).margin_percent = some 0
    ∧ (App.calcRow 40 Method.margin rowCost0).price_change = some 0 :=
  zero_cost_short_circuit rowCost0 40 Method.margin (by norm_num [rowCost0])

/-- C8: the pricing pass is idempotent — rerunning `calculatePrices` with
the same target and method on an already calculated dataset reproduces the
same rows — and the per-row computation depends only on cost_price and
current_price, not on prior derived fields. -/
theorem calculate_idempotent :
    (∀ (t : ℚ) (m : Method) (data : List ProductRow),
        App.calculatePrices t m (App.calculatePrices t m data)
          = App.calculatePrices t m data)
    ∧ (∀ (t : ℚ) (m : Method) (r₁ r₂ : ProductRow),
        r₁.cost_price = r₂.cost_price → r₁.current_price = r₂.current_price →
          (App.calcRow t m r₁).new_price = (App.calcRow t m r₂).new_price
          ∧ (App.calcRow t m r₁).margin_percent = (App.calcRow t m r₂).margin_percent
          ∧ (App.calcRow t m r₁).price_change = (App.calcRow t m r₂).price_change) := by
  constructor
  · intro t m data
    simp only [App.calculatePrices, List.map_map]
    apply List.map_congr_left
    intro r _
    by_cases h : r.cost_price = 0
    · obtain ⟨sku, title, cur, cost, np, mp, pc, nps, ex⟩ := r
      simp only [Function.comp_apply]
      simp_all [App.calcRow]
    · obtain ⟨sku, title, cur, cost, np, mp, pc, nps, ex⟩ := r
      simp only [Function.comp_apply]
      simp_all [App.calcRow]
  · intro t m r₁ r₂ hc hp
    by_cases h : r₂.cost_price = 0
    · simp [App.calcRow, hc, hp, h]
    · simp [App.calcRow, hc, hp, h]

/-- Witness for C8 at a concrete pair of rows agreeing on cost and current
price. -/
theorem calculate_idempotent_witness :
    (App.calcRow 40 Method.margin rowCost60).new_price
      = (App.calcRow 40 Method.margin { rowCost60 with title := "Other" }).new_price :=
  (calculate_idempotent.2 40 Method.margin rowCost60
    { rowCost60 with title := "Other" } rfl rfl).1

/-- C10: outside the zero-cost case (cost_price ≠ 0) the two embedded
pricing computations — the primary variant's and the legacy variant's —
produce the same row, in particular the same new_price, margin_percent and
price_change. -/
theorem variants_agree_nonzero_cost (row : ProductRow) (t : ℚ) (m : Method)
    (h : row.cost_price ≠ 0) :
    App.calcRow t m row = Legacy.calcRow t m row := by
  simp [App.calcRow, Legacy.calcRow, h]

/-- Witness for C10 at the cost-60 fixture. -/
theorem variants_agree_nonzero_cost_witness :
    App.calcRow 40 Method.margin rowCost60 = Legacy.calcRow 40 Method.margin rowCost60 :=
  variants_agree_nonzero_cost rowCost60 40 Method.margin (by norm_num [rowCost60])

/-- Helper: a left fold accumulating `acc + f r` computes the sum of the
mapped list. -/
theorem foldl_add_eq_sum (f : ProductRow → ℚ) (l : List ProductRow) (a : ℚ) :
    l.foldl (fun acc r => acc + f r) a = a + (l.map f).sum := by
  induction l generalizing a with
  | nil => simp
  | cons r l ih => simp [ih, add_assoc]

/-- Fixture: three rows whose margin_percent fields are 10, 20 and 30. -/
def margRows : List ProductRow :=
  [{ sku := "M1", title := "a", current_price := 1, cost_price := 1, margin_percent := some 10 },
   { sku := "M2", title := "b", current_price := 1, cost_price := 1, margin_percent := some 20 },
   { sku := "M3", title := "c", current_price := 1, cost_price := 1, margin_percent := some 30 }]

/-- Fixture: three rows whose price_change fields are +5, 0 and -3. -/
def changeRows : List ProductRow :=
  [{ sku := "P1", title := "a", current_price := 1, cost_price := 1, price_change := some 5 },
   { sku := "P2", title := "b", current_price := 1, cost_price := 1, price_change := some 0 },
   { sku := "P3", title := "c", current_price := 1, cost_price := 1, price_change := some (-3) }]

/-- C9: the aggregator returns total = row count, avgMargin = the arithmetic
mean of margin_percent over all rows (0 for an empty dataset), and counts of
rows with strictly positive / strictly negative price_change (zero-change
rows count toward neither); margins [10,20,30] average to 20 and price
changes [+5,0,-3] give one increase and one decrease. -/
theorem stats_summary :
    (∀ data : List ProductRow,
        (App.stats data).total = data.length
        ∧ (App.stats data).avgMargin =
            (if data = [] then 0
             else (data.map (fun r => r.margin_percent.getD 0)).sum / (data.length : ℚ))
        ∧ (App.stats data).priceIncreases
            = data.countP (fun r => decide (0 < r.price_change.getD 0))
        ∧ (App.stats data).priceDecreases
            = data.countP (fun r => decide (r.price_change.getD 0 < 0)))
    ∧ (App.stats margRows).avgMargin = 20
    ∧ (App.stats changeRows).priceIncreases = 1
    ∧ (App.stats changeRows).priceDecreases = 1 := by
  have hmain : ∀ data : List ProductRow,
      (App.stats data).total = data.length
      ∧ (App.stats data).avgMargin =
          (if data = [] then 0
           else (data.map (fun r => r.margin_percent.getD 0)).sum / (data.length : ℚ))
      ∧ (App.stats data).priceIncreases
          = data.countP (fun r => decide (0 < r.price_change.getD 0))
      ∧ (App.stats data).priceDecreases
          = data.countP (fun r => decide (r.price_change.getD 0 < 0)) := by
    intro data
    refine ⟨rfl, ?_, ?_, ?_⟩
    · simp only [App.stats, foldl_add_eq_sum, zero_add]
      rcases data with _ | ⟨r, l⟩ <;> simp
    · simp [App.stats, List.countP_eq_length_filter]
    · simp [App.stats, List.countP_eq_length_filter]
  refine ⟨hmain, ?_, ?_, ?_⟩
  · simp [App.stats, margRows, foldl_add_eq_sum]
    norm_num
  · simp [App.stats, changeRows, List.countP_eq_length_filter]
  · simp [App.stats, changeRows, List.countP_eq_length_filter]

/-- Helper: the missing-column list is nonempty exactly when the identifier
column or the price column is absent. -/
theorem missingOf_ne_nil_iff (cols : List String) :
    App.missingOf cols ≠ [] ↔
      (App.skuField ∉ cols ∨ App.priceField ∉ cols) := by
  by_cases h1 : App.skuField ∈ cols <;> by_cases h2 : App.priceField ∈ cols <;>
    simp [App.missingOf, h1, h2]

/-- C6: ingestion fails with EmptyDataset exactly on zero parsed rows, with
MissingColumns naming the missing required column(s) exactly when the
identifier or price column is absent from the header row (cost and title are
never required), with NoValidRows exactly when the identifier filter leaves
no row, and succeeds otherwise. -/
theorem ingest_error_taxonomy (parsed : List RawRow) :
    (App.ingest parsed = Except.error App.IngestError.EmptyDataset ↔ parsed = [])
    ∧ (App.missingOf (App.columnsOf parsed) ≠ [] ↔
        (App.skuField ∉ App.columnsOf parsed ∨ App.priceField ∉ App.columnsOf parsed))
    ∧ (∀ names, App.ingest parsed = Except.error (App.IngestError.MissingColumns names) ↔
        (parsed ≠ [] ∧ names = App.missingOf (App.columnsOf parsed)
          ∧ App.missingOf (App.columnsOf parsed) ≠ []))
    ∧ (App.ingest parsed = Except.error App.IngestError.NoValidRows ↔
        (parsed ≠ [] ∧ App.missingOf (App.columnsOf parsed) = []
          ∧ App.processedOf parsed = []))
    ∧ ((∃ out, App.ingest parsed = Except.ok out) ↔
        (parsed ≠ [] ∧ App.missingOf (App.columnsOf parsed) = []
          ∧ App.processedOf parsed ≠ [])) := by
  rcases parsed with _ | ⟨first, rest⟩
  · refine ⟨by simp [App.ingest], ?_, by simp [App.ingest], by simp [App.ingest],
      by simp [App.ingest]⟩
    exact missingOf_ne_nil_iff _
  · have hcols : App.columnsOf (first :: rest) = first.map Prod.fst := rfl
    rw [hcols]
    refine ⟨?_, missingOf_ne_nil_iff _, ?_, ?_, ?_⟩ <;>
      by_cases hm : App.missingOf (first.map Prod.fst) = [] <;>
        by_cases hp : App.processedOf (first :: rest) = [] <;>
          simp [App.ingest, hm, hp] <;>
            exact fun names => eq_comm

/-- Witness for C6: the empty dataset fails with EmptyDataset. -/
theorem ingest_error_taxonomy_witness :
    App.ingest [] = Except.error App.IngestError.EmptyDataset :=
  (ingest_error_taxonomy []).1.mpr rfl

/-- Fixture: a session that already holds a loaded dataset and headers. -/
def priorState : App.AppState :=
  { data := [rowCost0], headers := ["Old Col"], error := "" }

/-- Fixture: a raw CSV row with both required columns present but a blank
identifier, so the whole upload fails with NoValidRows. -/
def noValidRaw : RawRow := [("Variant SKU", ""), ("Variant Price", "7")]

/-- Counterexample to C7 as stated: a NoValidRows failure does not leave the
recorded header set unchanged — `setHeaders` runs before the row filter, so
the prior headers are replaced by the new file's columns. -/
theorem novalidrows_replaces_headers :
    (App.handleFileUpload priorState [noValidRaw]).error
        = "No valid products found. Check your CSV has data in the Variant SKU column."
    ∧ (App.handleFileUpload priorState [noValidRaw]).data = priorState.data
    ∧ (App.handleFileUpload priorState [noValidRaw]).headers
        = ["Variant SKU", "Variant Price"]
    ∧ priorState.headers = ["Old Col"]
    ∧ (App.handleFileUpload priorState [noValidRaw]).headers ≠ priorState.headers := by
  refine ⟨?_, ?_, ?_, rfl, ?_⟩ <;>
    simp [App.handleFileUpload, App.missingOf, App.processedOf, App.mkRow,
      App.validRow, lookupField, App.skuField, App.priceField, App.costField,
      App.titleField, jsStartsWith, priorState, noValidRaw]

/-- C7 (amended): on EmptyDataset and MissingColumns failures both the row
set and the recorded header set are unchanged; on a NoValidRows failure the
row set is unchanged but the recorded header set is replaced by the new
file's columns. -/
theorem failure_state_preservation (s : App.AppState) (parsed : List RawRow) :
    (parsed = [] →
        (App.handleFileUpload s parsed).data = s.data
        ∧ (App.handleFileUpload s parsed).headers = s.headers)
    ∧ (parsed ≠ [] → App.missingOf (App.columnsOf parsed) ≠ [] →
        (App.handleFileUpload s parsed).data = s.data
        ∧ (App.handleFileUpload s parsed).headers = s.headers)
    ∧ (parsed ≠ [] → App.missingOf (App.columnsOf parsed) = [] →
          App.processedOf parsed = [] →
        (App.handleFileUpload s parsed).data = s.data
        ∧ (App.handleFileUpload s parsed).headers = App.columnsOf parsed) := by
  refine ⟨?_, ?_, ?_⟩
  · rintro rfl
    simp [App.handleFileUpload]
  · rcases parsed with _ | ⟨first, rest⟩
    · intro h
      exact absurd rfl h
    · intro _ hm
      have hcols : App.columnsOf (first :: rest) = first.map Prod.fst := rfl
      rw [hcols] at hm
      simp [App.handleFileUpload, hm]
  · rcases parsed with _ | ⟨first, rest⟩
    · intro h
      exact absurd rfl h
    · intro _ hm hp
      have hcols : App.columnsOf (first :: rest) = first.map Prod.fst := rfl
      rw [hcols] at hm ⊢
      simp [App.handleFileUpload, hm, hp]

/-- Witness for C7 (amended): the EmptyDataset failure leaves a concrete
prior session untouched. -/
theorem failure_state_preservation_witness :
    (App.handleFileUpload priorState []).data = priorState.data
    ∧ (App.handleFileUpload priorState []).headers = priorState.headers :=
  (failure_state_preservation priorState []).1 rfl

/-- Fixture: a raw CSV row whose genuine identifier happens to start with
"ROW-". -/
def rowXRaw : RawRow := [("Variant SKU", "ROW-X"), ("Variant Price", "5")]

/-- Counterexample to C4 as stated: the row's trimmed identifier "ROW-X" is
non-blank and is not the synthesized placeholder (which would be "ROW-1"),
yet ingestion drops it — the whole upload even fails with NoValidRows. -/
theorem real_row_identifier_dropped :
    App.ingest [rowXRaw] = Except.error App.IngestError.NoValidRows
    ∧ jsTrim "ROW-X" = "ROW-X"
    ∧ "ROW-X" ≠ ""
    ∧ "ROW-X" ≠ "ROW-1" := by
  refine ⟨?_, by decide, by decide, by decide⟩
  simp [App.ingest, App.missingOf, App.processedOf, App.mkRow, App.validRow,
    lookupField, App.skuField, App.priceField, App.costField, App.titleField,
    jsStartsWith, jsTrim, rowXRaw]

/-- C4 (amended): ingestion retains exactly the rows whose computed
identifier is nonempty and does not start with "ROW-"; a row whose raw
identifier is missing or blank gets the synthesized `ROW-<1-based index>`
placeholder (and is therefore dropped), but genuine identifiers that begin
with "ROW-" are dropped as well. -/
theorem retained_iff_valid (parsed : List RawRow) (i : Nat) (raw : RawRow)
    (h : (i, raw) ∈ parsed.enum) :
    (App.mkRow i raw ∈ App.processedOf parsed ↔
        ((App.mkRow i raw).sku ≠ ""
          ∧ jsStartsWith (App.mkRow i raw).sku "ROW-" = false))
    ∧ ((lookupField raw App.skuField = none ∨ lookupField raw App.skuField = some "") →
        (App.mkRow i raw).sku = "ROW-" ++ toString (i + 1)) := by
  constructor
  · constructor
    · intro hmem
      have hv := (List.mem_filter.mp hmem).2
      simpa [App.validRow] using hv
    · intro hv
      refine List.mem_filter.mpr ⟨List.mem_map.mpr ⟨(i, raw), h, rfl⟩, ?_⟩
      simp [App.validRow, hv.1, hv.2]
  · intro hcase
    rcases hcase with hnone | hempty
    · simp [App.mkRow, hnone]
    · simp [App.mkRow, hempty]

/-- Witness for C4 (amended) at the concrete "ROW-X" upload. -/
theorem retained_iff_valid_witness :
    App.mkRow 0 rowXRaw ∈ App.processedOf [rowXRaw] ↔
      ((App.mkRow 0 rowXRaw).sku ≠ ""
        ∧ jsStartsWith (App.mkRow 0 rowXRaw).sku "ROW-" = false) :=
  (retained_iff_valid [rowXRaw] 0 rowXRaw (by decide)).1

/-- Fixture: a raw CSV row with a negative price cell. -/
def negRawRow : RawRow :=
  [("Variant SKU", "A"), ("Variant Price", "-5"), ("Cost per item", "2")]

/-- Fixture: the product row that ingesting `negRawRow` produces. -/
def negRow : ProductRow :=
  { sku := "A", title := "Unknown Product", current_price := -5, cost_price := 2,
    extra := negRawRow }

/-- Fixture: the full ingestion output for `negRawRow`. -/
def negOut : List String × List ProductRow :=
  (["Variant SKU", "Variant Price", "Cost per item"], [negRow])

/-- Helper: concrete evaluation of ingestion on the negative-price row. -/
theorem ingest_neg_eval : App.ingest [negRawRow] = Except.ok negOut := by
  simp [App.ingest, App.missingOf, App.processedOf, App.mkRow, App.validRow,
    lookupField, App.skuField, App.priceField, App.costField, App.titleField,
    jsTrim, jsStartsWith, cleanNumber, stripMoney, jsParseFloat, readSign,
    natOfDigits, digitVal, isDigitCh, isStrippedCh, negRawRow, negOut, negRow]
  decide

/-- Counterexample to C3 as stated: a negative price cell "-5" is stored as
the negative number -5, not coerced to 0, so a successfully ingested row
violates current_price ≥ 0. -/
theorem negative_price_not_coerced :
    (App.ingest [negRawRow]).toOption.map (fun p => p.2.map ProductRow.current_price)
        = some [-5]
    ∧ ((-5 : ℚ) < 0) := by
  rw [ingest_neg_eval]
  refine ⟨?_, by norm_num⟩
  simp [Except.toOption, negOut, negRow]

/-- Helper: every row of the processed set comes from `mkRow` on an
enumerated raw row. -/
theorem mem_processedOf {parsed : List RawRow} {r : ProductRow}
    (h : r ∈ App.processedOf parsed) :
    ∃ p ∈ parsed.enum, r = App.mkRow p.1 p.2 := by
  rcases List.mem_map.mp (List.mem_filter.mp h).1 with ⟨p, hp, hep⟩
  exact ⟨p, hp, hep.symm⟩

/-- Helper: a cleaned cell value is nonnegative unless the cell's stripped
text parses to exactly that negative number. -/
theorem cleanNumber_cases (v : Option String) :
    0 ≤ cleanNumber v
    ∨ ∃ s, v = some s ∧ jsParseFloat (stripMoney s) = some (cleanNumber v)
        ∧ cleanNumber v < 0 := by
  rcases v with _ | s
  · left
    simp [cleanNumber]
  · by_cases he : s = ""
    · left
      simp [cleanNumber, he]
    · rcases hp : jsParseFloat (stripMoney s) with _ | q
      · left
        simp [cleanNumber, he, hp]
      · by_cases hq : 0 ≤ q
        · left
          simpa [cleanNumber, he, hp] using hq
        · right
          have hval : cleanNumber (some s) = q := by simp [cleanNumber, he, hp]
          refine ⟨s, rfl, ?_, ?_⟩
          · rw [hval]
            exact hp
          · rw [hval]
            exact lt_of_not_ge hq

/-- C3 (amended): in every successfully ingested dataset, each row's
current_price and cost_price is either nonnegative or equal to the
faithfully parsed negative value of its own raw cell — empty, missing and
unparsable cells coerce to 0, but negative numeric input is stored as-is,
so the values are not always ≥ 0. -/
theorem ingested_price_sign (parsed : List RawRow)
    (out : List String × List ProductRow)
    (hok : App.ingest parsed = Except.ok out) (r : ProductRow) (hr : r ∈ out.2) :
    (0 ≤ r.current_price
      ∨ ∃ s, lookupField r.extra App.priceField = some s
          ∧ jsParseFloat (stripMoney s) = some r.current_price
          ∧ r.current_price < 0)
    ∧ (0 ≤ r.cost_price
      ∨ ∃ s, lookupField r.extra App.costField = some s
          ∧ jsParseFloat (stripMoney s) = some r.cost_price
          ∧ r.cost_price < 0) := by
  have hproc : r ∈ App.processedOf parsed := by
    rcases parsed with _ | ⟨first, rest⟩
    · simp [App.ingest] at hok
    · by_cases hm : App.missingOf (first.map Prod.fst) = []
      · by_cases hp2 : App.processedOf (first :: rest) = []
        · simp [App.ingest, hm, hp2] at hok
        · simp [App.ingest, hm, hp2] at hok
          rw [← hok] at hr
          exact hr
      · simp [App.ingest, hm] at hok
  rcases mem_processedOf hproc with ⟨p, -, rfl⟩
  constructor
  · rcases cleanNumber_cases (lookupField p.2 App.priceField) with h0 | ⟨s, hs, hparse, hneg⟩
    · left
      simpa [App.mkRow] using h0
    · right
      exact ⟨s, by simpa [App.mkRow] using hs, by simpa [App.mkRow] using hparse,
        by simpa [App.mkRow] using hneg⟩
  · rcases cleanNumber_cases (lookupField p.2 App.costField) with h0 | ⟨s, hs, hparse, hneg⟩
    · left
      simpa [App.mkRow] using h0
    · right
      exact ⟨s, by simpa [App.mkRow] using hs, by simpa [App.mkRow] using hparse,
        by simpa [App.mkRow] using hneg⟩

/-- Witness for C3 (amended) at the ingested negative-price row. -/
theorem ingested_price_sign_witness :
    0 ≤ negRow.current_price
    ∨ ∃ s, lookupField negRow.extra App.priceField = some s
        ∧ jsParseFloat (stripMoney s) = some negRow.current_price
        ∧ negRow.current_price < 0 :=
  (ingested_price_sign [negRawRow] negOut ingest_neg_eval negRow
    (by simp [negOut])).1

/-- Helper: the 2-decimal formatter never yields the empty string. -/
theorem toFixed2_ne_empty (q : ℚ) : toFixed2 q ≠ "" := by
  intro h
  have hlen := congrArg String.length h
  simp only [toFixed2, String.length_append] at hlen
  rw [show (".").length = 1 from rfl, show ("" : String).length = 0 from rfl] at hlen
  omega

/-- Fixture: a loaded row on which no calculation has been run. -/
def rowPlain : ProductRow :=
  { sku := "SKU-2", title := "Gadget", current_price := 5, cost_price := 3 }

/-- Counterexample to C5 as stated: when no calculation has been run the
export's price cell is `undefined` (empty), not the row's original current
price in any form. -/
theorem no_calc_price_cell_not_current :
    App.shopifyPrice rowPlain = none
    ∧ rowPlain.new_price = none
    ∧ rowPlain.new_price_shopify = none
    ∧ rowPlain.current_price = 5
    ∧ App.shopifyPrice rowPlain ≠ some (Sum.inr rowPlain.current_price)
    ∧ App.shopifyPrice rowPlain ≠ some (Sum.inl (toFixed2 rowPlain.current_price)) := by
  refine ⟨?_, rfl, rfl, rfl, ?_, ?_⟩ <;> simp [App.shopifyPrice, rowPlain]

/-- C5 (amended): the export price cell is the 2-decimal string of the
calculated price for rows with nonzero cost; for zero-cost calculated rows
it falls back to the raw `new_price` number (numerically the current price,
but not 2-decimal formatted); and when no calculation has been run at all it
is empty, not the original current price. -/
theorem shopify_price_cell (row : ProductRow) (t : ℚ) (m : Method) :
    (row.cost_price ≠ 0 →
        App.shopifyPrice (App.calcRow t m row)
          = some (Sum.inl (toFixed2 ((App.calcRow t m row).new_price.getD 0))))
    ∧ (row.cost_price = 0 → row.new_price_shopify = none →
        App.shopifyPrice (App.calcRow t m row) = some (Sum.inr row.current_price))
    ∧ (row.new_price_shopify = none → row.new_price = none →
        App.shopifyPrice row = none) := by
  refine ⟨?_, ?_, ?_⟩
  · intro h
    simp [App.calcRow, h, App.shopifyPrice, toFixed2_ne_empty]
  · intro h hn
    simp [App.calcRow, h, App.shopifyPrice, hn]
  · intro h1 h2
    simp [App.shopifyPrice, h1, h2]

/-- Witness for C5 (amended) at the cost-60 fixture. -/
theorem shopify_price_cell_witness :
    App.shopifyPrice (App.calcRow 40 Method.margin rowCost60)
      = some (Sum.inl (toFixed2 ((App.calcRow 40 Method.margin rowCost60).new_price.getD 0))) :=
  (shopify_price_cell rowCost60 40 Method.margin).1 (by norm_num [rowCost60])

end PriceUpdate
